import Mathlib

/-!
Shallow embedding of the Sodaq_N3X modem driver (src/src/Sodaq_N3X.cpp).

The driver talks to a cellular modem over a serial line.  We model the
response stream reaching `readResponse` as the list of already-framed lines
(each a `List Char`, terminator stripped, as produced by `readLn`); stream
exhaustion stands for the outer timeout.  Machine integers follow the
compiled 32-bit ARM target: `size_t` arithmetic is carried out modulo
`2 ^ 32` (`USIZE`), and values scanned by `%d` are kept as unbounded `Int`
(all inputs considered stay far below `INT_MAX`).

The header `Sodaq_N3X.h` is not part of the sources; the few constants it
defines (`SOCKET_COUNT`, buffer sizes) are either taken as parameters
(`sc : Nat` stands for `SOCKET_COUNT`) or modelled from the spec below.
-/

namespace SodaqN3X

/-- `size_t` modulus on the 32-bit ARM target. -/
def USIZE : Nat := 2 ^ 32

/-- Conversion of an `int` value to `size_t` (two's-complement wraparound). -/
def sizeT (v : Int) : Nat := (v.emod (USIZE : Int)).toNat

/-- The NUL character, used as C string terminator. -/
def NUL : Char := Char.ofNat 0

/-- The line-feed character inserted between accumulated payload lines. -/
def LF : Char := '\n'

/-- Literal `STR_AT` (`"AT"`). -/
def STR_AT : List Char := ['A', 'T']

/-- Literal `STR_RESPONSE_OK` (`"OK"`). -/
def STR_RESPONSE_OK : List Char := ['O', 'K']

/-- Literal `STR_RESPONSE_ERROR` (`"ERROR"`). -/
def STR_RESPONSE_ERROR : List Char := ['E', 'R', 'R', 'O', 'R']

/-- Literal `STR_RESPONSE_CME_ERROR` (`"+CME ERROR:"`). -/
def STR_RESPONSE_CME_ERROR : List Char :=
  ['+', 'C', 'M', 'E', ' ', 'E', 'R', 'R', 'O', 'R', ':']

/-- Literal `STR_RESPONSE_CMS_ERROR` (`"+CMS ERROR:"`). -/
def STR_RESPONSE_CMS_ERROR : List Char :=
  ['+', 'C', 'M', 'S', ' ', 'E', 'R', 'R', 'O', 'R', ':']

/-- `Sodaq_N3X::startsWith(pre, str)`: `strncmp(pre, str, strlen(pre)) == 0`. -/
def startsWith : List Char → List Char → Bool
  | [], _ => true
  | _ :: _, [] => false
  | p :: ps, s :: ss => p = s && startsWith ps ss

/-- Modelled from the spec: the header (not under `src/`) fixes the size of the
single-read scratch buffer `SODAQ_N3X_MAX_UDP_BUFFER` (the spec's
`maxSingleReadSize`); its concrete value is irrelevant to the claims. -/
def SODAQ_N3X_MAX_UDP_BUFFER : Nat := 512

/-- Modelled from the spec: the header (not under `src/`) fixes the maximum
outgoing payload `SODAQ_MAX_SEND_MESSAGE_SIZE` (the spec's `maxPayload`);
its concrete value is irrelevant to the claims. -/
def SODAQ_MAX_SEND_MESSAGE_SIZE : Nat := 512

/-- `SOCKET_FAIL` sentinel returned by `socketCreate` on failure. -/
def SOCKET_FAIL : Int := -1

/-- The socket-state table: per-session closed flag (`_socketClosedBit`) and
pending received-byte counter (`_socketPendingBytes`, a `size_t`).  Both
arrays have `SOCKET_COUNT` entries; the `SOCKET_COUNT` in force is the list
length / the `sc` parameter of the operations. -/
structure N3XState where
  socketClosedBit : List Bool
  socketPendingBytes : List Nat
deriving DecidableEq

/-- Constructor state: `memset(_socketClosedBit, 1, ...)`,
`memset(_socketPendingBytes, 0, ...)`. -/
def initState (sc : Nat) : N3XState :=
  ⟨List.replicate sc true, List.replicate sc 0⟩

/-- Read of `_socketPendingBytes[s]`. -/
def pendingAt (st : N3XState) (s : Nat) : Nat :=
  st.socketPendingBytes.getD s 0

/-- Read of `_socketClosedBit[s]`. -/
def closedAt (st : N3XState) (s : Nat) : Bool :=
  st.socketClosedBit.getD s false

/-! ### `sscanf` fragments

Only the conversion directives actually used by the source are modelled:
a literal character matches itself, a space in the format matches a
(possibly empty) run of whitespace, and `%d` skips whitespace, accepts an
optional sign and then one or more decimal digits. -/

/-- C `isspace` on the characters `sscanf` skips. -/
def isWS (c : Char) : Bool :=
  c == ' ' || c == '\t' || c == '\n' || c == '\x0b' || c == '\x0c' || c == '\r'

/-- Skip a whitespace run. -/
def dropWS (s : List Char) : List Char := s.dropWhile isWS

/-- Numeric value of a decimal digit character. -/
def digitVal (c : Char) : Nat := c.toNat - 48

/-- Accumulate a run of decimal digits (the tail of a `%d` conversion). -/
def scanDigitsAux : List Char → Nat → Nat × List Char
  | [], acc => (acc, [])
  | c :: cs, acc =>
    if c.isDigit then scanDigitsAux cs (acc * 10 + digitVal c) else (acc, c :: cs)

/-- A non-empty run of decimal digits; fails (conversion failure) otherwise. -/
def scanDigits (s : List Char) : Option (Nat × List Char) :=
  match s with
  | c :: cs => if c.isDigit then some (scanDigitsAux cs (digitVal c)) else none
  | [] => none

/-- The `%d` conversion: skip whitespace, optional sign, digits. -/
def scanInt (s : List Char) : Option (Int × List Char) :=
  match dropWS s with
  | '-' :: r => (scanDigits r).map (fun p => (-(p.1 : Int), p.2))
  | '+' :: r => (scanDigits r).map (fun p => ((p.1 : Int), p.2))
  | r => (scanDigits r).map (fun p => ((p.1 : Int), p.2))

/-- Match the literal part of a format: a space matches any whitespace run,
any other character matches exactly itself. -/
def scanLit : List Char → List Char → Option (List Char)
  | [], s => some s
  | c :: cs, s =>
    if c = ' ' then scanLit cs (dropWS s)
    else
      match s with
      | [] => none
      | x :: xs => if x = c then scanLit cs xs else none

/-- Match a single literal character. -/
def litChar (c : Char) (s : List Char) : Option (List Char) :=
  match s with
  | x :: xs => if x = c then some xs else none
  | [] => none

/-- The `%[^"]` conversion: one or more characters up to a double quote. -/
def scanNonQuote (s : List Char) : Option (List Char × List Char) :=
  match s.takeWhile (fun c => c != '"') with
  | [] => none
  | t => some (t, s.dropWhile (fun c => c != '"'))

/-- `sscanf(s, tag ++ "%d,%d", ...) == 2` with the two scanned values. -/
def scanTag2 (tag s : List Char) : Option (Int × Int) :=
  (scanLit tag s).bind fun s1 =>
  (scanInt s1).bind fun a =>
  (litChar ',' a.2).bind fun s2 =>
  (scanInt s2).map fun b => (a.1, b.1)

/-- `sscanf(s, tag ++ "%d", ...) == 1` with the scanned value. -/
def scanTag1 (tag s : List Char) : Option Int :=
  (scanLit tag s).bind fun s1 =>
  (scanInt s1).map fun a => a.1

/-- URC tag `"+UFOTAS: "`. -/
def tagUFOTAS : List Char := ['+', 'U', 'F', 'O', 'T', 'A', 'S', ':', ' ']

/-- URC tag `"+UUSORF: "`. -/
def tagUUSORF : List Char := ['+', 'U', 'U', 'S', 'O', 'R', 'F', ':', ' ']

/-- URC tag `"+UUSOCL: "`. -/
def tagUUSOCL : List Char := ['+', 'U', 'U', 'S', 'O', 'C', 'L', ':', ' ']

/-- URC tag `"+CSCON: "`. -/
def tagCSCON : List Char := ['+', 'C', 'S', 'C', 'O', 'N', ':', ' ']

/-- Effect of the `+UUSORF` branch of `checkURC`: `_socketPendingBytes[a] += b`
(in `size_t` arithmetic) when `param1 >= 0 && param1 < SOCKET_COUNT`. -/
def urcAddPending (sc : Nat) (st : N3XState) (a b : Int) : N3XState :=
  if 0 ≤ a ∧ a < (sc : Int) then
    N3XState.mk st.socketClosedBit
      (st.socketPendingBytes.set a.toNat ((pendingAt st a.toNat + sizeT b) % USIZE))
  else st

/-- Effect of the `+UUSOCL` branch of `checkURC`: mark session `a` closed when
`param1 >= 0 && param1 < SOCKET_COUNT`. -/
def urcSetClosed (sc : Nat) (st : N3XState) (a : Int) : N3XState :=
  if 0 ≤ a ∧ a < (sc : Int) then
    N3XState.mk (st.socketClosedBit.set a.toNat true) st.socketPendingBytes
  else st

/-- `Sodaq_N3X::checkURC(buffer)` (continued): classify the line, mutate the
socket table for the data-arrival and socket-closed shapes, return whether
the line was handled plus the possibly updated table. -/
def checkURC (sc : Nat) (st : N3XState) (buffer : List Char) : Bool × N3XState :=
  if buffer.head? ≠ some '+' then (false, st)
  else
    match scanTag2 tagUFOTAS buffer with
    | some _ => (true, st)
    | none =>
      match scanTag2 tagUUSORF buffer with
      | some ab => (true, urcAddPending sc st ab.1 ab.2)
      | none =>
        match scanTag1 tagUUSOCL buffer with
        | some a => (true, urcSetClosed sc st a)
        | none =>
          match scanTag1 tagCSCON buffer with
          | some _ => (true, st)
          | none => (false, st)

/-! ### Response matcher -/

/-- The `GSMResponseTypes` values `readResponse` can return (the header is not
under `src/`; the spec's Command Outcome lists exactly `Ok`, `Error`,
`Timeout`, matching the three values the implementation returns). -/
inductive GSMResponseTypes where
  | GSMResponseOK
  | GSMResponseError
  | GSMResponseTimeout
deriving DecidableEq

export GSMResponseTypes (GSMResponseOK GSMResponseError GSMResponseTimeout)

/-- Result of a `readResponse` call: the outcome, the caller buffer allocation
after the call, the log of buffer indices written, the final accumulated
length `outSize`, and the socket table after URC absorption. -/
structure RRResult where
  outcome : GSMResponseTypes
  buf : List Char
  log : List Nat
  outSize : Nat
  st : N3XState
deriving DecidableEq

/-- In-bounds `memcpy(buf + dst, src, n)` as a list splice. -/
def memcpyList (buf : List Char) (dst : Nat) (src : List Char) (n : Nat) : List Char :=
  buf.take dst ++ src.take n ++ buf.drop (dst + n)

/-- `usePrefix`: `prefix != NULL && prefix[0] != 0` (`none` models `NULL`). -/
def rrUsePfx (pfx? : Option (List Char)) : Bool :=
  pfx?.isSome && pfx? != some []

/-- `useOutBuffer`: `outBuffer != NULL && outMaxSize > 0`. -/
def rrUseOut (hasBuf : Bool) (cap : Nat) : Bool :=
  hasBuf && decide (0 < cap)

/-- `hasPrefix`: `usePrefix && useOutBuffer && startsWith(prefix, _inputBuffer)`. -/
def rrHasPfx (pfx? : Option (List Char)) (hasBuf : Bool) (cap : Nat) (line : List Char) : Bool :=
  rrUsePfx pfx? && rrUseOut hasBuf cap && startsWith (pfx?.getD []) line

/-- The no-prefix accumulation condition `!usePrefix && useOutBuffer`. -/
def rrAppendNoPfx (pfx? : Option (List Char)) (hasBuf : Bool) (cap : Nat) : Bool :=
  !rrUsePfx pfx? && rrUseOut hasBuf cap

/-- The payload-append step of `readResponse` for one matching line: insert a
line-feed separator when something was already accumulated and room remains,
then copy the line (minus the first `pfxLen` characters) truncated to the
remaining room, and terminate.  All `size_t` arithmetic here runs on values
bounded by `cap ≥ 1`, so plain `Nat` subtraction coincides with it.  Returns
the new buffer, the accumulated write log and the new `outSize`. -/
def appendStep (pfxLen cap : Nat) (line buf : List Char) (log : List Nat) (outSize : Nat) :
    List Char × List Nat × Nat :=
  let buf1 := if 0 < outSize ∧ outSize < cap - 1 then buf.set outSize LF else buf
  let log1 := if 0 < outSize ∧ outSize < cap - 1 then outSize :: log else log
  let os1 := if 0 < outSize ∧ outSize < cap - 1 then outSize + 1 else outSize
  if os1 < cap - 1 then
    let cnt0 := line.length - pfxLen
    let cnt := if os1 + cnt0 > cap - 1 then cap - 1 - os1 else cnt0
    ((memcpyList buf1 os1 (line.drop pfxLen) cnt).set (os1 + cnt) NUL,
      (os1 + cnt) :: ((List.range cnt).map (fun j => os1 + j)) ++ log1,
      os1 + cnt)
  else (buf1, log1, os1)

/-- The per-line loop of `Sodaq_N3X::readResponse`, applied to the list of
framed lines; exhausting the list models the outer timeout (`count <= 0`
re-polls until `is_timedout`, so empty frames are skipped).  Order of checks
follows the source: echo, `OK`, the three error markers, `hasPrefix`,
`checkURC`, payload accumulation. -/
def readResponseGo (sc : Nat) (pfx? : Option (List Char)) (hasBuf : Bool) (cap : Nat)
    (st : N3XState) (buf : List Char) (log : List Nat) (outSize : Nat) :
    List (List Char) → RRResult
  | [] => ⟨GSMResponseTimeout, buf, log, outSize, st⟩
  | line :: rest =>
    if line = [] then readResponseGo sc pfx? hasBuf cap st buf log outSize rest
    else if startsWith STR_AT line then
      readResponseGo sc pfx? hasBuf cap st buf log outSize rest
    else if startsWith STR_RESPONSE_OK line then ⟨GSMResponseOK, buf, log, outSize, st⟩
    else if startsWith STR_RESPONSE_ERROR line || startsWith STR_RESPONSE_CME_ERROR line
        || startsWith STR_RESPONSE_CMS_ERROR line then
      ⟨GSMResponseError, buf, log, outSize, st⟩
    else if rrHasPfx pfx? hasBuf cap line then
      readResponseGo sc pfx? hasBuf cap st
        (appendStep (pfx?.getD []).length cap line buf log outSize).1
        (appendStep (pfx?.getD []).length cap line buf log outSize).2.1
        (appendStep (pfx?.getD []).length cap line buf log outSize).2.2 rest
    else if (checkURC sc st line).1 then
      readResponseGo sc pfx? hasBuf cap (checkURC sc st line).2 buf log outSize rest
    else if rrAppendNoPfx pfx? hasBuf cap then
      readResponseGo sc pfx? hasBuf cap (checkURC sc st line).2
        (appendStep 0 cap line buf log outSize).1
        (appendStep 0 cap line buf log outSize).2.1
        (appendStep 0 cap line buf log outSize).2.2 rest
    else readResponseGo sc pfx? hasBuf cap (checkURC sc st line).2 buf log outSize rest

/-- `Sodaq_N3X::readResponse(outBuffer, outMaxSize, prefix, timeout)`.
`alloc` is the caller buffer's allocation (its content is arbitrary and may
be larger than the stated capacity `cap`); `hasBuf = false` models a `NULL`
buffer.  The initial `outBuffer[0] = 0` write is performed whenever the
buffer is non-`NULL`, regardless of `cap`, as in the source. -/
def readResponse (sc : Nat) (st : N3XState) (alloc : List Char) (hasBuf : Bool) (cap : Nat)
    (pfx? : Option (List Char)) (lines : List (List Char)) : RRResult :=
  readResponseGo sc pfx? hasBuf cap st
    (if hasBuf then alloc.set 0 NUL else alloc)
    (if hasBuf then [0] else []) 0 lines

/-- The C string held in a buffer: its characters up to the first NUL. -/
def cstr (buf : List Char) : List Char := buf.takeWhile (fun c => c != NUL)

/-! ### Socket manager operations -/

/-- Decimal rendering of a non-negative integer, as the Arduino `print`
overloads emit it (fuel-based division loop). -/
def decDigitsAux : Nat → Nat → List Char → List Char
  | 0, _, acc => acc
  | fuel + 1, n, acc =>
    if n < 10 then Char.ofNat (48 + n % 10) :: acc
    else decDigitsAux fuel (n / 10) (Char.ofNat (48 + n % 10) :: acc)

/-- Decimal rendering of a `Nat`. -/
def decDigits (n : Nat) : List Char := decDigitsAux (n + 1) n []

/-- The command text `socketReceive` sends: `print("AT+USORF="); println(socketID);`
(`println` appends a single carriage return). -/
def usorfCmd (socketID : Nat) : List Char :=
  ['A', 'T', '+', 'U', 'S', 'O', 'R', 'F', '='] ++ decDigits socketID ++ ['\r']

/-- Response prefix `"+USOCR: "` used by `socketCreate`. -/
def pfxUSOCR : List Char := ['+', 'U', 'S', 'O', 'C', 'R', ':', ' ']

/-- Literal `"+USORF: "` opening the reply format parsed by `socketReceive`. -/
def tagUSORF : List Char := ['+', 'U', 'S', 'O', 'R', 'F', ':', ' ']

/-- `sscanf(outBuffer, "+USORF: %d,\"%*[^\"]\",%*d,%d,\"%[^\"]\"", ...) == 3`:
the reply's socket id, reported size, and hex payload. -/
def parseUSORF (s : List Char) : Option (Int × Int × List Char) :=
  (scanLit tagUSORF s).bind fun s1 =>
  (scanInt s1).bind fun rid =>
  (litChar ',' rid.2).bind fun s2 =>
  (litChar '"' s2).bind fun s3 =>
  (scanNonQuote s3).bind fun ip =>
  (litChar '"' ip.2).bind fun s4 =>
  (litChar ',' s4).bind fun s5 =>
  (scanInt s5).bind fun port =>
  (litChar ',' port.2).bind fun s6 =>
  (scanInt s6).bind fun rsize =>
  (litChar ',' rsize.2).bind fun s7 =>
  (litChar '"' s7).bind fun s8 =>
  (scanNonQuote s8).map fun payload => (rid.1, rsize.1, payload.1)

/-- `NIBBLE_TO_HEX_CHAR(i)`: `(i <= 9) ? ('0' + i) : ('A' - 10 + i)`. -/
def NIBBLE_TO_HEX_CHAR (i : Nat) : Char :=
  if i ≤ 9 then Char.ofNat (48 + i) else Char.ofNat (55 + i)

/-- `HIGH_NIBBLE(i)`: `(i >> 4) & 0x0F`. -/
def HIGH_NIBBLE (i : Nat) : Nat := (i >>> 4) &&& 15

/-- `LOW_NIBBLE(i)`: `i & 0x0F`. -/
def LOW_NIBBLE (i : Nat) : Nat := i &&& 15

/-- `HEX_CHAR_TO_NIBBLE(c)`: `(c >= 'A') ? (c - 'A' + 0x0A) : (c - '0')`. -/
def HEX_CHAR_TO_NIBBLE (c : Char) : Nat :=
  if 'A' ≤ c then c.toNat - 65 + 10 else c.toNat - 48

/-- `HEX_PAIR_TO_BYTE(h, l)`: `(HEX_CHAR_TO_NIBBLE(h) << 4) + HEX_CHAR_TO_NIBBLE(l)`. -/
def HEX_PAIR_TO_BYTE (h l : Char) : Nat :=
  (HEX_CHAR_TO_NIBBLE h <<< 4) + HEX_CHAR_TO_NIBBLE l

/-- The hex encoding loop of `socketSend`: each byte becomes
`NIBBLE_TO_HEX_CHAR(HIGH_NIBBLE(b))` then `NIBBLE_TO_HEX_CHAR(LOW_NIBBLE(b))`. -/
def hexEncode : List Nat → List Char
  | [] => []
  | b :: bs => NIBBLE_TO_HEX_CHAR (HIGH_NIBBLE b) :: NIBBLE_TO_HEX_CHAR (LOW_NIBBLE b) :: hexEncode bs

/-- The hex decoding loop of `socketReceive`:
`for (i = 0; i < retSize * 2; i += 2) buffer[i / 2] = HEX_PAIR_TO_BYTE(out[i], out[i+1])`,
with the store into a `uint8_t` taken modulo 256. -/
def hexDecodeIdx (n : Nat) (cs : List Char) : List Nat :=
  (List.range n).map fun k =>
    HEX_PAIR_TO_BYTE (cs.getD (2 * k) NUL) (cs.getD (2 * k + 1) NUL) % 256

/-- Result of `socketReceive`: the returned length, the socket table, the
command text written to the modem, and the bytes stored into the caller
buffer. -/
structure SRResult where
  ret : Nat
  st : N3XState
  cmd : List Char
  out : List Nat
deriving DecidableEq

/-- `Sodaq_N3X::socketReceive(socketID, buffer, size)` over a reply line
stream.  The internal `outBuffer[SODAQ_N3X_MAX_UDP_BUFFER]` allocation is
taken zero-initialised (its content before the reply is parse-irrelevant
for the inputs considered). -/
def socketReceive (sc : Nat) (st : N3XState) (socketID : Nat) (hasBuf : Bool) (size : Nat)
    (lines : List (List Char)) : SRResult :=
  if pendingAt st socketID = 0 then ⟨0, st, [], []⟩
  else
    let sz := min size (min SODAQ_N3X_MAX_UDP_BUFFER (pendingAt st socketID))
    let cmd := usorfCmd socketID
    let r := readResponse sc st (List.replicate SODAQ_N3X_MAX_UDP_BUFFER NUL) true
      SODAQ_N3X_MAX_UDP_BUFFER none lines
    if r.outcome ≠ GSMResponseOK then ⟨0, r.st, cmd, []⟩
    else
      match parseUSORF (cstr r.buf) with
      | none => ⟨0, r.st, cmd, []⟩
      | some (retSocketID, retSize, payload) =>
        if retSocketID < 0 ∨ (sc : Int) ≤ retSocketID then ⟨0, r.st, cmd, []⟩
        else
          let rsz := sizeT retSize
          ⟨rsz,
            N3XState.mk r.st.socketClosedBit
              (r.st.socketPendingBytes.set socketID
                ((pendingAt r.st socketID + (USIZE - rsz)) % USIZE)),
            cmd,
            if hasBuf ∧ 0 < sz then hexDecodeIdx rsz payload else []⟩

/-- `Sodaq_N3X::socketCreate(localPort, protocol)` over a reply line stream:
read the `"+USOCR: "` reply into a 32-byte buffer, `sscanf("%d")` the session
id, reject it when `(socketID < 0) || (socketID > SOCKET_COUNT)`, otherwise
set that session's entry to closed with no pending bytes and return the id. -/
def socketCreate (sc : Nat) (st : N3XState) (lines : List (List Char)) : Int × N3XState :=
  let r := readResponse sc st (List.replicate 32 NUL) true 32 (some pfxUSOCR) lines
  if r.outcome ≠ GSMResponseOK then (SOCKET_FAIL, r.st)
  else
    match scanInt (cstr r.buf) with
    | none => (SOCKET_FAIL, r.st)
    | some (socketID, _) =>
      if socketID < 0 ∨ socketID > (sc : Int) then (SOCKET_FAIL, r.st)
      else
        (socketID,
          N3XState.mk (r.st.socketClosedBit.set socketID.toNat true)
            (r.st.socketPendingBytes.set socketID.toNat 0))

/-- `Sodaq_N3X::socketClose(socketID, async)` over a reply line stream: emit
the close command, unconditionally set `closed = true` and `pendingBytes = 0`
for the session, then read the response (which may absorb URCs) and report
whether it was `OK`. -/
def socketClose (sc : Nat) (st : N3XState) (socketID : Nat) (_async : Bool)
    (lines : List (List Char)) : Bool × N3XState :=
  let st1 := N3XState.mk (st.socketClosedBit.set socketID true)
    (st.socketPendingBytes.set socketID 0)
  let r := readResponse sc st1 [] false 0 none lines
  (r.outcome == GSMResponseOK, r.st)

/-- `AUTOMATIC_OPERATOR` (`"0"`). -/
def AUTOMATIC_OPERATOR : List Char := ['0']

/-- Command text `"AT+COPS=0\r"`. -/
def copsAutoCmd : List Char := ['A', 'T', '+', 'C', 'O', 'P', 'S', '=', '0', '\r']

/-- Command text `AT+COPS=1,2,"<opr>"` followed by a carriage return. -/
def copsManualCmd (o : List Char) : List Char :=
  ['A', 'T', '+', 'C', 'O', 'P', 'S', '=', '1', ',', '2', ',', '"'] ++ o ++ ['"', '\r']

/-- `Sodaq_N3X::setOperator(opr)` over a reply line stream (`none` models a
`NULL` pointer): returns the success flag, the list of command lines written
to the modem, and the socket table after the call. -/
def setOperator (sc : Nat) (st : N3XState) (opr : Option (List Char))
    (lines : List (List Char)) : Bool × List (List Char) × N3XState :=
  if opr = none ∨ opr = some [] then (true, [], st)
  else
    let cmd := if opr.getD [] = AUTOMATIC_OPERATOR then copsAutoCmd
      else copsManualCmd (opr.getD [])
    let r := readResponse sc st [] false 0 none lines
    (r.outcome == GSMResponseOK, [cmd], r.st)

/-- A line's session id when it is a socket-data-arrival notification
(`+UUSORF: id,count`); `none` otherwise. -/
def urcDataTarget (line : List Char) : Option Int :=
  (scanTag2 tagUUSORF line).map (fun ab => ab.1)

/-- A line matches one of the four recognized notification shapes. -/
def urcRecognized (line : List Char) : Bool :=
  (scanTag2 tagUFOTAS line).isSome || (scanTag2 tagUUSORF line).isSome
    || (scanTag1 tagUUSOCL line).isSome || (scanTag1 tagCSCON line).isSome

/-- Formalisation of the spec sentence "requests exactly N bytes in the read
command": the optional second (length) argument of an `AT+USORF=` command,
as digit characters.  Defined from the wire grammar `AT+USORF=<id>[,<length>]`
the spec attributes to the read command. -/
def usorfLengthArg (cmd : List Char) : Option (List Char) :=
  (scanLit (['A', 'T', '+', 'U', 'S', 'O', 'R', 'F', '=']) cmd).bind fun r =>
    match r.dropWhile (fun c => c.isDigit) with
    | ',' :: rest => some (rest.takeWhile (fun c => c.isDigit))
    | _ => none

/-- The expected-prefix literal `"+PREFIX: "` of the response-matcher test
scenario. -/
def pfxPREFIX : List Char := ['+', 'P', 'R', 'E', 'F', 'I', 'X', ':', ' ']

end SodaqN3X

namespace SodaqN3X

/-! ### List helpers -/

theorem take_set_of_le {α : Type} (l : List α) (n i : Nat) (c : α) (h : n ≤ i) :
    (l.set i c).take n = l.take n := by
  induction l generalizing n i with
  | nil => simp
  | cons a as ih =>
    cases i with
    | zero =>
      have : n = 0 := Nat.le_zero.mp h
      simp [this]
    | succ j =>
      cases n with
      | zero => simp
      | succ m =>
        simp only [List.set_cons_succ, List.take_succ_cons]
        rw [ih m j (Nat.le_of_succ_le_succ h)]

theorem getD_set_ne {α : Type} (l : List α) (i j : Nat) (v d : α) (h : i ≠ j) :
    (l.set i v).getD j d = l.getD j d := by
  induction l generalizing i j with
  | nil => simp
  | cons a as ih =>
    cases i with
    | zero =>
      cases j with
      | zero => exact absurd rfl h
      | succ m => simp [List.getD_cons_succ]
    | succ k =>
      cases j with
      | zero => simp [List.getD_cons_zero]
      | succ m =>
        simp only [List.set_cons_succ, List.getD_cons_succ]
        exact ih k m (fun e => h (by rw [e]))

theorem getD_set_self {α : Type} (l : List α) (i : Nat) (v d : α) :
    (l.set i v).getD i d = if i < l.length then v else d := by
  induction l generalizing i with
  | nil => simp
  | cons a as ih =>
    cases i with
    | zero => simp
    | succ k =>
      simp only [List.set_cons_succ, List.getD_cons_succ, List.length_cons]
      rw [ih k]
      simp [Nat.succ_lt_succ_iff]

theorem startsWith_ne_nil (c : Char) (p s : List Char) (h : startsWith (c :: p) s = true) :
    s ≠ [] := by
  intro e
  rw [e] at h
  simp [startsWith] at h

theorem startsWith_append_self (p s : List Char) : startsWith p (p ++ s) = true := by
  induction p with
  | nil => rfl
  | cons c cs ih => simp [startsWith, ih]

/-! ### Scanner and `checkURC` helpers -/

theorem scanLit_cons_nonspace (c : Char) (cs s r : List Char) (hc : c ≠ ' ')
    (h : scanLit (c :: cs) s = some r) : ∃ t, s = c :: t ∧ scanLit cs t = some r := by
  rw [scanLit.eq_def] at h
  simp only [if_neg hc] at h
  match s with
  | [] => exact absurd h (by simp)
  | x :: xs =>
    have h' : (if x = c then scanLit cs xs else none) = some r := h
    by_cases hx : x = c
    · rw [if_pos hx] at h'
      exact ⟨xs, by rw [hx], h'⟩
    · rw [if_neg hx] at h'
      exact absurd h' (by simp)

theorem checkURC_enum (sc : Nat) (st : N3XState) (line : List Char) :
    checkURC sc st line = (false, st) ∨
      ((checkURC sc st line).1 = true ∧ urcRecognized line = true) := by
  unfold checkURC urcRecognized
  split
  · exact Or.inl rfl
  · split
    · rename_i heq
      exact Or.inr ⟨rfl, by simp [heq]⟩
    · split
      · rename_i heq
        exact Or.inr ⟨rfl, by simp [heq]⟩
      · split
        · rename_i heq
          exact Or.inr ⟨rfl, by simp [heq]⟩
        · split
          · rename_i heq
            exact Or.inr ⟨rfl, by simp [heq]⟩
          · exact Or.inl rfl

theorem checkURC_false_state (sc : Nat) (st : N3XState) (line : List Char)
    (h : (checkURC sc st line).1 = false) : (checkURC sc st line).2 = st := by
  rcases checkURC_enum sc st line with he | he
  · rw [he]
  · rw [he.1] at h
    cases h

theorem urcRecognized_of_checkURC (sc : Nat) (st : N3XState) (line : List Char)
    (h : (checkURC sc st line).1 = true) : urcRecognized line = true := by
  rcases checkURC_enum sc st line with he | he
  · rw [he] at h
    cases h
  · exact he.2

theorem checkURC_unrecognized (sc : Nat) (st : N3XState) (line : List Char)
    (h : urcRecognized line = false) : checkURC sc st line = (false, st) := by
  rcases checkURC_enum sc st line with he | he
  · exact he
  · rw [he.2] at h
    cases h

theorem checkURC_non_sentinel (sc : Nat) (st : N3XState) (line : List Char)
    (h : line.head? ≠ some '+') : checkURC sc st line = (false, st) := by
  unfold checkURC
  rw [if_pos h]

theorem pendingAt_urcAddPending_ne (sc : Nat) (st : N3XState) (a b : Int) (s : Nat)
    (h : a ≠ (s : Int)) : pendingAt (urcAddPending sc st a b) s = pendingAt st s := by
  unfold urcAddPending
  split
  · rename_i hg
    unfold pendingAt
    apply getD_set_ne
    intro e
    apply h
    rw [← e, Int.toNat_of_nonneg hg.1]
  · rfl

theorem closedAt_urcAddPending (sc : Nat) (st : N3XState) (a b : Int) (s : Nat) :
    closedAt (urcAddPending sc st a b) s = closedAt st s := by
  unfold urcAddPending closedAt
  split <;> rfl

theorem pendingAt_urcSetClosed (sc : Nat) (st : N3XState) (a : Int) (s : Nat) :
    pendingAt (urcSetClosed sc st a) s = pendingAt st s := by
  unfold urcSetClosed pendingAt
  split <;> rfl

theorem closedAt_urcSetClosed_true (sc : Nat) (st : N3XState) (a : Int) (s : Nat)
    (h : closedAt st s = true) : closedAt (urcSetClosed sc st a) s = true := by
  unfold urcSetClosed
  split
  · unfold closedAt at *
    by_cases he : a.toNat = s
    · rw [he, getD_set_self]
      split
      · rfl
      · rename_i hlen
        rw [List.getD_eq_default _ _ (Nat.le_of_not_lt hlen)] at h
        exact h
    · rw [getD_set_ne _ _ _ _ _ he]
      exact h
  · exact h

theorem checkURC_pendingAt (sc : Nat) (st : N3XState) (line : List Char) (s : Nat)
    (h : urcDataTarget line ≠ some (s : Int)) :
    pendingAt (checkURC sc st line).2 s = pendingAt st s := by
  unfold checkURC
  split
  · rfl
  · split
    · rfl
    · split
      · rename_i ab heq
        apply pendingAt_urcAddPending_ne
        intro e
        apply h
        unfold urcDataTarget
        rw [heq]
        simp [e]
      · split
        · exact pendingAt_urcSetClosed sc st _ s
        · split
          · rfl
          · rfl

theorem checkURC_closedAt (sc : Nat) (st : N3XState) (line : List Char) (s : Nat)
    (h : closedAt st s = true) : closedAt (checkURC sc st line).2 s = true := by
  unfold checkURC
  split
  · exact h
  · split
    · exact h
    · split
      · rw [closedAt_urcAddPending]
        exact h
      · split
        · exact closedAt_urcSetClosed_true sc st _ s h
        · split
          · exact h
          · exact h

theorem readResponseGo_preserves (sc : Nat) (pfx? : Option (List Char)) (hasBuf : Bool)
    (cap : Nat) (s : Nat) :
    ∀ (lines : List (List Char)) (st : N3XState) (buf : List Char) (log : List Nat)
      (outSize : Nat),
      (∀ l ∈ lines, urcDataTarget l ≠ some (s : Int)) →
      pendingAt st s = 0 → closedAt st s = true →
      pendingAt (readResponseGo sc pfx? hasBuf cap st buf log outSize lines).st s = 0 ∧
        closedAt (readResponseGo sc pfx? hasBuf cap st buf log outSize lines).st s = true := by
  intro lines
  induction lines with
  | nil =>
    intro st buf log outSize _ hp hc
    exact ⟨hp, hc⟩
  | cons line rest ih =>
    intro st buf log outSize hurc hp hc
    have hline : urcDataTarget line ≠ some (s : Int) := hurc line (by simp)
    have hrest : ∀ l ∈ rest, urcDataTarget l ≠ some (s : Int) :=
      fun l hl => hurc l (by simp [hl])
    have hp' : pendingAt (checkURC sc st line).2 s = 0 := by
      rw [checkURC_pendingAt sc st line s hline]
      exact hp
    have hc' := checkURC_closedAt sc st line s hc
    simp only [readResponseGo]
    split_ifs
    · exact ih st buf log outSize hrest hp hc
    · exact ih st buf log outSize hrest hp hc
    · exact ⟨hp, hc⟩
    · exact ⟨hp, hc⟩
    · exact ih st _ _ _ hrest hp hc
    · exact ih _ buf log outSize hrest hp' hc'
    · exact ih _ _ _ _ hrest hp' hc'
    · exact ih _ buf log outSize hrest hp' hc'

/-! ### Claim theorems (first group) -/

/-- C1 (code bug, failing input): session 0 holds `pendingBytes = 1`; the modem
reply line `+USORF: 0,"1.2.3.4",99,5,"AABBCCDDEE"` reports `retSize = 5`.
`socketReceive` executes `_socketPendingBytes[0] -= 5` in `size_t`
arithmetic, so the counter wraps to `USIZE - 4 = 4294967292`, strictly above
its pre-call value `1` — the decrement is not capped by the pre-call value as
the claim states. -/
theorem socketReceive_decrement_uncapped :
    pendingAt (socketReceive 7
      (N3XState.mk (List.replicate 7 true) [1, 0, 0, 0, 0, 0, 0]) 0 true 16
      [("+USORF: 0,\"1.2.3.4\",99,5,\"AABBCCDDEE\"").toList, ("OK").toList]).st 0
        = USIZE - 4 ∧
    1 < pendingAt (socketReceive 7
      (N3XState.mk (List.replicate 7 true) [1, 0, 0, 0, 0, 0, 0]) 0 true 16
      [("+USORF: 0,\"1.2.3.4\",99,5,\"AABBCCDDEE\"").toList, ("OK").toList]).st 0 ∧
    (socketReceive 7
      (N3XState.mk (List.replicate 7 true) [1, 0, 0, 0, 0, 0, 0]) 0 true 16
      [("+USORF: 0,\"1.2.3.4\",99,5,\"AABBCCDDEE\"").toList, ("OK").toList]).ret = 5 := by
  decide

/-- C3 (amended): a stream containing only `["ERROR"]` and a stream containing
only `["+CME ERROR: 10"]` both yield the single `GSMResponseError` outcome;
`readResponse` parses no trailing numeric code and does not distinguish
generic from device-specific errors. -/
theorem readResponse_error_lines :
    (readResponse 7 (initState 7) [] false 0 none
      [("ERROR").toList]).outcome = GSMResponseError ∧
    (readResponse 7 (initState 7) [] false 0 none
      [("+CME ERROR: 10").toList]).outcome = GSMResponseError := by
  decide

/-- C3 counterexample: the claim requires the outcome for `["+CME ERROR: 10"]`
(`DeviceSpecific(10)`) to differ from the outcome for `["ERROR"]`
(`Generic`); in the code both calls return the very same
`GSMResponseError` value, so no such distinction exists. -/
theorem readResponse_error_outcomes_equal :
    (readResponse 7 (initState 7) [] false 0 none [("ERROR").toList]).outcome
      = (readResponse 7 (initState 7) [] false 0 none
        [("+CME ERROR: 10").toList]).outcome := by
  decide

/-- C4 (code bug, failing input): with `SOCKET_COUNT = 7`, the validation
`(socketID < 0) || (socketID > SOCKET_COUNT)` accepts the reply
`"+USOCR: 7"` and returns session id `7`, which does not lie in
`[0, SOCKET_COUNT)` (and indexes one past the end of the 7-entry table);
the in-range reply `"+USOCR: 3"` yields id 3 with `closed = true` and
`pendingBytes = 0` even from a table in the opposite state. -/
theorem socketCreate_boundary :
    (socketCreate 7 (N3XState.mk (List.replicate 7 false) (List.replicate 7 9))
      [("+USOCR: 7").toList, ("OK").toList]).1 = 7 ∧
    ¬ ((socketCreate 7 (N3XState.mk (List.replicate 7 false) (List.replicate 7 9))
      [("+USOCR: 7").toList, ("OK").toList]).1 < (7 : Int)) ∧
    (socketCreate 7 (N3XState.mk (List.replicate 7 false) (List.replicate 7 9))
      [("+USOCR: 3").toList, ("OK").toList]).1 = 3 ∧
    closedAt (socketCreate 7 (N3XState.mk (List.replicate 7 false) (List.replicate 7 9))
      [("+USOCR: 3").toList, ("OK").toList]).2 3 = true ∧
    pendingAt (socketCreate 7 (N3XState.mk (List.replicate 7 false) (List.replicate 7 9))
      [("+USOCR: 3").toList, ("OK").toList]).2 3 = 0 := by
  decide

theorem readResponseGo_closedAt (sc : Nat) (pfx? : Option (List Char)) (hasBuf : Bool)
    (cap : Nat) (s : Nat) :
    ∀ (lines : List (List Char)) (st : N3XState) (buf : List Char) (log : List Nat)
      (outSize : Nat), closedAt st s = true →
      closedAt (readResponseGo sc pfx? hasBuf cap st buf log outSize lines).st s = true := by
  intro lines
  induction lines with
  | nil =>
    intro st buf log outSize hc
    exact hc
  | cons line rest ih =>
    intro st buf log outSize hc
    have hc' := checkURC_closedAt sc st line s hc
    simp only [readResponseGo]
    split_ifs
    · exact ih st buf log outSize hc
    · exact ih st buf log outSize hc
    · exact hc
    · exact hc
    · exact ih st _ _ _ hc
    · exact ih _ buf log outSize hc'
    · exact ih _ _ _ _ hc'
    · exact ih _ buf log outSize hc'

/-- C7 (amended): immediately after `socketClose(s, async)` the session is
always marked closed (no notification ever clears the closed bit), and the
returned boolean is exactly whether the response stream produced the `OK`
outcome; the pending-byte counter is zero provided the close-response
stream contains no socket-data-arrival notification for `s` (such a
notification, absorbed while awaiting the close acknowledgment,
re-increments the counter after its unconditional reset). -/
theorem socketClose_post_state (sc : Nat) (st : N3XState) (s : Nat) (async : Bool)
    (lines : List (List Char))
    (hlen : st.socketClosedBit.length = sc) (hs : s < sc) :
    closedAt (socketClose sc st s async lines).2 s = true ∧
      ((socketClose sc st s async lines).1 = true ↔
        (readResponse sc
          (N3XState.mk (st.socketClosedBit.set s true) (st.socketPendingBytes.set s 0))
          [] false 0 none lines).outcome = GSMResponseOK) ∧
      ((∀ l ∈ lines, urcDataTarget l ≠ some (s : Int)) →
        pendingAt (socketClose sc st s async lines).2 s = 0) := by
  have hp1 : pendingAt
      (N3XState.mk (st.socketClosedBit.set s true) (st.socketPendingBytes.set s 0)) s = 0 := by
    unfold pendingAt
    rw [getD_set_self]
    split <;> rfl
  have hc1 : closedAt
      (N3XState.mk (st.socketClosedBit.set s true) (st.socketPendingBytes.set s 0)) s = true := by
    unfold closedAt
    rw [getD_set_self]
    rw [if_pos]
    rw [hlen]
    exact hs
  refine ⟨?_, beq_iff_eq, ?_⟩
  · exact readResponseGo_closedAt sc none false 0 s lines
      (N3XState.mk (st.socketClosedBit.set s true) (st.socketPendingBytes.set s 0))
      [] [] 0 hc1
  · intro hurc
    exact (readResponseGo_preserves sc none false 0 s lines
      (N3XState.mk (st.socketClosedBit.set s true) (st.socketPendingBytes.set s 0))
      [] [] 0 hurc hp1 hc1).1

/-- Witness for C7 at `sc = 7`, a table with session 0 open and 3 pending
bytes, and a close-response stream `["OK"]`. -/
theorem socketClose_post_state_witness :
    closedAt (socketClose 7
      (N3XState.mk (List.replicate 7 false) (List.replicate 7 3)) 0 false
      [("OK").toList]).2 0 = true ∧
    ((socketClose 7
      (N3XState.mk (List.replicate 7 false) (List.replicate 7 3)) 0 false
      [("OK").toList]).1 = true ↔
      (readResponse 7
        (N3XState.mk ((List.replicate 7 false).set 0 true) ((List.replicate 7 3).set 0 0))
        [] false 0 none [("OK").toList]).outcome = GSMResponseOK) ∧
    ((∀ l ∈ [("OK").toList], urcDataTarget l ≠ some ((0 : Nat) : Int)) →
      pendingAt (socketClose 7
        (N3XState.mk (List.replicate 7 false) (List.replicate 7 3)) 0 false
        [("OK").toList]).2 0 = 0) :=
  socketClose_post_state 7
    (N3XState.mk (List.replicate 7 false) (List.replicate 7 3)) 0 false
    [("OK").toList] (by decide) (by decide)

/-- C7 counterexample: closing session 0 while the close-response stream
carries the data-arrival notification `+UUSORF: 0,5` before `OK` leaves
`pendingBytes(0) = 5`, not 0, immediately after `socketClose` returns, even
though the close itself is acknowledged. -/
theorem socketClose_pending_after_urc :
    (socketClose 7 (initState 7) 0 false
      [("+UUSORF: 0,5").toList, ("OK").toList]).1 = true ∧
    pendingAt (socketClose 7 (initState 7) 0 false
      [("+UUSORF: 0,5").toList, ("OK").toList]).2 0 = 5 ∧
    pendingAt (socketClose 7 (initState 7) 0 false
      [("+UUSORF: 0,5").toList, ("OK").toList]).2 0 ≠ 0 := by
  decide

/-- C8 (code bug, failing input): `readResponse` with a 4-byte capacity, no
prefix and line stream `["ab", "cd", "OK"]` returns `Ok` having appended
`"ab"` and then the line-break separator for `"cd"`; the separator overwrote
the terminator in the last free slot and no terminator was rewritten, so no
NUL remains within the stated capacity (every write index stayed below the
capacity — the violated guarantee is the null-termination, on which the
driver's `strlen`-using callers rely). -/
theorem readResponse_terminator_clobbered :
    (readResponse 7 (initState 7) (List.replicate 8 'x') true 4 none
      [("ab").toList, ("cd").toList, ("OK").toList]).outcome = GSMResponseOK ∧
    (∀ i ∈ (readResponse 7 (initState 7) (List.replicate 8 'x') true 4 none
      [("ab").toList, ("cd").toList, ("OK").toList]).log, i < 4) ∧
    (∀ i, i < 4 → (readResponse 7 (initState 7) (List.replicate 8 'x') true 4 none
      [("ab").toList, ("cd").toList, ("OK").toList]).buf.getD i NUL ≠ NUL) := by
  decide

/-- C9: `checkURC` reports a line handled only when it matches one of the four
recognized notification shapes; a line matching none of them — in
particular any line not beginning with the `'+'` sentinel — is reported
unhandled and leaves the socket table untouched. -/
theorem checkURC_only_recognized (sc : Nat) (st : N3XState) (line : List Char) :
    ((checkURC sc st line).1 = true → urcRecognized line = true) ∧
      (urcRecognized line = false → checkURC sc st line = (false, st)) ∧
      (line.head? ≠ some '+' → checkURC sc st line = (false, st)) :=
  ⟨urcRecognized_of_checkURC sc st line, checkURC_unrecognized sc st line,
    checkURC_non_sentinel sc st line⟩

/-- Witness for C9 at the unrecognized sentinel line `"+FOO: 1"`. -/
theorem checkURC_only_recognized_witness :
    checkURC 7 (initState 7) (("+FOO: 1").toList) = (false, initState 7) :=
  (checkURC_only_recognized 7 (initState 7) (("+FOO: 1").toList)).2.1 (by decide)

/-- C10: `setOperator` with a NULL (`none`) or empty operator string returns
`true` and writes no command to the modem stream, so the
operator-selection step of `connect()` is skipped and cannot fail when no
operator is forced. -/
theorem setOperator_skips_empty (sc : Nat) (st : N3XState) (lines : List (List Char)) :
    setOperator sc st none lines = (true, [], st) ∧
      setOperator sc st (some []) lines = (true, [], st) := by
  constructor <;> simp [setOperator]

/-! ### Hex transcoding (C6) -/

set_option maxRecDepth 8192 in
theorem hex_byte_roundtrip : ∀ b, b < 256 →
    HEX_PAIR_TO_BYTE (NIBBLE_TO_HEX_CHAR (HIGH_NIBBLE b))
      (NIBBLE_TO_HEX_CHAR (LOW_NIBBLE b)) % 256 = b := by
  decide

theorem hexDecodeIdx_cons (n : Nat) (c1 c2 : Char) (cs : List Char) :
    hexDecodeIdx (n + 1) (c1 :: c2 :: cs)
      = (HEX_PAIR_TO_BYTE c1 c2 % 256) :: hexDecodeIdx n cs := by
  unfold hexDecodeIdx
  rw [List.range_succ_eq_map, List.map_cons, List.map_map]
  refine congrArg₂ List.cons rfl ?_
  apply List.map_congr_left
  intro k _
  show HEX_PAIR_TO_BYTE ((c1 :: c2 :: cs).getD (2 * (k + 1)) NUL)
      ((c1 :: c2 :: cs).getD (2 * (k + 1) + 1) NUL) % 256 = _
  have e1 : 2 * (k + 1) = 2 * k + 1 + 1 := by ring
  rw [e1]
  rfl

set_option linter.unusedVariables false in
/-- C6: encoding each byte as two uppercase hex characters exactly as the
`socketSend` loop does, then decoding character pairs exactly as the
`socketReceive` loop does, returns any byte sequence of length at most
`SODAQ_MAX_SEND_MESSAGE_SIZE` unchanged. -/
theorem hex_roundtrip (bs : List Nat) (hb : ∀ b ∈ bs, b < 256)
    (hlen : bs.length ≤ SODAQ_MAX_SEND_MESSAGE_SIZE) :
    hexDecodeIdx bs.length (hexEncode bs) = bs := by
  clear hlen
  induction bs with
  | nil => rfl
  | cons b bs ih =>
    simp only [hexEncode, List.length_cons]
    rw [hexDecodeIdx_cons]
    rw [hex_byte_roundtrip b (hb b (by simp))]
    rw [ih (fun x hx => hb x (by simp [hx]))]

/-- Witness for C6 at the byte sequence `[0, 171, 255]`. -/
theorem hex_roundtrip_witness :
    hexDecodeIdx 3 (hexEncode [0, 171, 255]) = [0, 171, 255] :=
  hex_roundtrip [0, 171, 255] (by decide) (by decide)

/-! ### The read command issued by `socketReceive` (C2) -/

theorem digitChar_isDigit (m : Nat) (h : m < 10) :
    (Char.ofNat (48 + m)).isDigit = true := by
  interval_cases m <;> decide

theorem decDigitsAux_all_digit (fuel : Nat) :
    ∀ (n : Nat) (acc : List Char), (∀ c ∈ acc, c.isDigit = true) →
      ∀ c ∈ decDigitsAux fuel n acc, c.isDigit = true := by
  induction fuel with
  | zero =>
    intro n acc hacc
    exact hacc
  | succ f ih =>
    intro n acc hacc
    have hd : (Char.ofNat (48 + n % 10)).isDigit = true :=
      digitChar_isDigit (n % 10) (Nat.mod_lt _ (by norm_num))
    have hacc' : ∀ c ∈ Char.ofNat (48 + n % 10) :: acc, c.isDigit = true := by
      intro c hc
      rcases List.mem_cons.mp hc with rfl | hc
      · exact hd
      · exact hacc c hc
    simp only [decDigitsAux]
    split
    · exact hacc'
    · exact ih (n / 10) _ hacc'

theorem decDigits_all_digit (n : Nat) : ∀ c ∈ decDigits n, c.isDigit = true :=
  decDigitsAux_all_digit (n + 1) n [] (by simp)

theorem dropWhile_append_of_all {α : Type} (p : α → Bool) (a b : List α)
    (h : ∀ c ∈ a, p c = true) : (a ++ b).dropWhile p = b.dropWhile p := by
  induction a with
  | nil => rfl
  | cons x xs ih =>
    simp only [List.cons_append, List.dropWhile_cons]
    rw [h x (by simp)]
    simp only [if_true]
    exact ih (fun c hc => h c (by simp [hc]))

theorem scanLit_nospace_append (l r : List Char) (h : ∀ c ∈ l, c ≠ ' ') :
    scanLit l (l ++ r) = some r := by
  induction l with
  | nil => rfl
  | cons c cs ih =>
    have step : scanLit (c :: cs) ((c :: cs) ++ r)
        = if c = ' ' then scanLit cs (dropWS ((c :: cs) ++ r))
          else if c = c then scanLit cs (cs ++ r) else none := rfl
    rw [step]
    rw [if_neg (h c (by simp)), if_pos rfl]
    exact ih (fun x hx => h x (by simp [hx]))

/-- C2 (amended): whenever `pendingBytes(socketID)` is non-zero,
`socketReceive` computes `min(capacity, SODAQ_N3X_MAX_UDP_BUFFER,
pendingBytes)` only as a local bound on the copy into the caller buffer; the
read command it issues is exactly `AT+USORF=<socketID>` followed by a
carriage return, which carries no byte-count argument at all, so no specific
number of bytes is requested from the modem. -/
theorem socketReceive_command_shape (sc : Nat) (st : N3XState) (sid : Nat) (hb : Bool)
    (size : Nat) (lines : List (List Char)) (h : pendingAt st sid ≠ 0) :
    (socketReceive sc st sid hb size lines).cmd = usorfCmd sid ∧
      usorfLengthArg (usorfCmd sid) = none := by
  constructor
  · simp only [socketReceive, h, if_false, if_neg h]
    split
    · rfl
    · split
      · rfl
      · split
        · rfl
        · rfl
  · unfold usorfLengthArg usorfCmd
    rw [List.append_assoc]
    rw [scanLit_nospace_append _ _ (by decide)]
    simp only [Option.some_bind]
    rw [dropWhile_append_of_all _ _ _ (decDigits_all_digit sid)]
    rfl

/-- Witness for C2 at `socketID = 0`, capacity 5, 10 pending bytes. -/
theorem socketReceive_command_shape_witness :
    (socketReceive 7 (N3XState.mk (List.replicate 7 true) [10, 0, 0, 0, 0, 0, 0])
      0 true 5 [("OK").toList]).cmd = usorfCmd 0 ∧
      usorfLengthArg (usorfCmd 0) = none :=
  socketReceive_command_shape 7
    (N3XState.mk (List.replicate 7 true) [10, 0, 0, 0, 0, 0, 0])
    0 true 5 [("OK").toList] (by decide)

/-- C2 counterexample: with capacity 5, `maxSingleReadSize` 512 and
`pendingBytes(0) = 10`, the claim asserts that the issued read command
requests exactly `min(5, 512, 10) = 5` bytes; the command actually issued
(`AT+USORF=0`) carries no length argument, so its length field is `none`,
not the decimal rendering of that minimum. -/
theorem socketReceive_command_no_length :
    ¬ (usorfLengthArg ((socketReceive 7
        (N3XState.mk (List.replicate 7 true) [10, 0, 0, 0, 0, 0, 0])
        0 true 5 [("OK").toList]).cmd)
      = some (decDigits (min 5 (min SODAQ_N3X_MAX_UDP_BUFFER
        (pendingAt (N3XState.mk (List.replicate 7 true) [10, 0, 0, 0, 0, 0, 0]) 0))))) := by
  decide

/-! ### The prefixed-payload scenario (C5) -/

theorem scanLit_shape3 (c1 c2 c3 : Char) (cs s r : List Char)
    (h1 : c1 ≠ ' ') (h2 : c2 ≠ ' ') (h3 : c3 ≠ ' ')
    (h : scanLit (c1 :: c2 :: c3 :: cs) s = some r) :
    ∃ t, s = c1 :: c2 :: c3 :: t := by
  rcases scanLit_cons_nonspace _ _ _ _ h1 h with ⟨t1, rfl, hb1⟩
  rcases scanLit_cons_nonspace _ _ _ _ h2 hb1 with ⟨t2, rfl, hb2⟩
  rcases scanLit_cons_nonspace _ _ _ _ h3 hb2 with ⟨t3, rfl, _⟩
  exact ⟨t3, rfl⟩

theorem scanTag2_scanLit (tag line : List Char) (x : Int × Int)
    (h : scanTag2 tag line = some x) : ∃ s1, scanLit tag line = some s1 := by
  unfold scanTag2 at h
  rcases he : scanLit tag line with _ | s1
  · rw [he] at h
    exact absurd h (by simp)
  · exact ⟨s1, rfl⟩

theorem scanTag1_scanLit (tag line : List Char) (x : Int)
    (h : scanTag1 tag line = some x) : ∃ s1, scanLit tag line = some s1 := by
  unfold scanTag1 at h
  rcases he : scanLit tag line with _ | s1
  · rw [he] at h
    exact absurd h (by simp)
  · exact ⟨s1, rfl⟩

theorem urc_line_shape (sc : Nat) (st : N3XState) (line : List Char)
    (h : (checkURC sc st line).1 = true) :
    (∃ t, line = '+' :: 'U' :: 'F' :: t) ∨ (∃ t, line = '+' :: 'U' :: 'U' :: t)
      ∨ (∃ t, line = '+' :: 'C' :: 'S' :: t) := by
  have hr := urcRecognized_of_checkURC sc st line h
  unfold urcRecognized at hr
  simp only [Bool.or_eq_true, Option.isSome_iff_exists] at hr
  rcases hr with ((⟨x, hx⟩ | ⟨x, hx⟩) | ⟨x, hx⟩) | ⟨x, hx⟩
  · rcases scanTag2_scanLit _ _ _ hx with ⟨s1, hs1⟩
    rw [show tagUFOTAS = '+' :: 'U' :: 'F' :: ['O', 'T', 'A', 'S', ':', ' '] from rfl] at hs1
    exact Or.inl (scanLit_shape3 _ _ _ _ _ _ (by decide) (by decide) (by decide) hs1)
  · rcases scanTag2_scanLit _ _ _ hx with ⟨s1, hs1⟩
    rw [show tagUUSORF = '+' :: 'U' :: 'U' :: ['S', 'O', 'R', 'F', ':', ' '] from rfl] at hs1
    exact Or.inr (Or.inl
      (scanLit_shape3 _ _ _ _ _ _ (by decide) (by decide) (by decide) hs1))
  · rcases scanTag1_scanLit _ _ _ hx with ⟨s1, hs1⟩
    rw [show tagUUSOCL = '+' :: 'U' :: 'U' :: ['S', 'O', 'C', 'L', ':', ' '] from rfl] at hs1
    exact Or.inr (Or.inl
      (scanLit_shape3 _ _ _ _ _ _ (by decide) (by decide) (by decide) hs1))
  · rcases scanTag1_scanLit _ _ _ hx with ⟨s1, hs1⟩
    rw [show tagCSCON = '+' :: 'C' :: 'S' :: ['C', 'O', 'N', ':', ' '] from rfl] at hs1
    exact Or.inr (Or.inr
      (scanLit_shape3 _ _ _ _ _ _ (by decide) (by decide) (by decide) hs1))

theorem urc_not_markers (sc : Nat) (st : N3XState) (line : List Char)
    (h : (checkURC sc st line).1 = true) :
    line ≠ [] ∧ startsWith STR_AT line = false
      ∧ startsWith STR_RESPONSE_OK line = false
      ∧ startsWith STR_RESPONSE_ERROR line = false
      ∧ startsWith STR_RESPONSE_CME_ERROR line = false
      ∧ startsWith STR_RESPONSE_CMS_ERROR line = false
      ∧ startsWith pfxPREFIX line = false := by
  rcases urc_line_shape sc st line h with ⟨t, rfl⟩ | ⟨t, rfl⟩ | ⟨t, rfl⟩ <;>
    exact ⟨by simp, rfl, rfl, rfl, rfl, rfl, rfl⟩

theorem rrGo_skip_echo (sc : Nat) (pfx? : Option (List Char)) (hasBuf : Bool) (cap : Nat)
    (st : N3XState) (buf : List Char) (log : List Nat) (outSize : Nat)
    (line : List Char) (rest : List (List Char))
    (h : startsWith STR_AT line = true) :
    readResponseGo sc pfx? hasBuf cap st buf log outSize (line :: rest)
      = readResponseGo sc pfx? hasBuf cap st buf log outSize rest := by
  have hne : line ≠ [] := by
    intro e
    rw [e] at h
    exact absurd h (by decide)
  simp only [readResponseGo]
  rw [if_neg hne, if_pos h]

theorem rrGo_ok (sc : Nat) (pfx? : Option (List Char)) (hasBuf : Bool) (cap : Nat)
    (st : N3XState) (buf : List Char) (log : List Nat) (outSize : Nat)
    (line : List Char) (rest : List (List Char))
    (hne : line ≠ []) (h1 : startsWith STR_AT line = false)
    (h2 : startsWith STR_RESPONSE_OK line = true) :
    readResponseGo sc pfx? hasBuf cap st buf log outSize (line :: rest)
      = ⟨GSMResponseOK, buf, log, outSize, st⟩ := by
  simp only [readResponseGo]
  rw [if_neg hne, if_neg (by simp [h1]), if_pos h2]

theorem rrGo_urc_skip (sc : Nat) (pfx? : Option (List Char)) (hasBuf : Bool) (cap : Nat)
    (st : N3XState) (buf : List Char) (log : List Nat) (outSize : Nat)
    (line : List Char) (rest : List (List Char))
    (hne : line ≠ []) (h1 : startsWith STR_AT line = false)
    (h2 : startsWith STR_RESPONSE_OK line = false)
    (h3 : startsWith STR_RESPONSE_ERROR line = false)
    (h4 : startsWith STR_RESPONSE_CME_ERROR line = false)
    (h5 : startsWith STR_RESPONSE_CMS_ERROR line = false)
    (hpfx : startsWith (pfx?.getD []) line = false)
    (hurc : (checkURC sc st line).1 = true) :
    readResponseGo sc pfx? hasBuf cap st buf log outSize (line :: rest)
      = readResponseGo sc pfx? hasBuf cap (checkURC sc st line).2 buf log outSize rest := by
  simp only [readResponseGo]
  rw [if_neg hne, if_neg (by simp [h1]), if_neg (by simp [h2]),
    if_neg (by simp [h3, h4, h5]),
    if_neg (show ¬ rrHasPfx pfx? hasBuf cap line = true by simp [rrHasPfx, hpfx]),
    if_pos hurc]

theorem rrGo_append_pfx (sc : Nat) (pfx? : Option (List Char)) (hasBuf : Bool) (cap : Nat)
    (st : N3XState) (buf : List Char) (log : List Nat) (outSize : Nat)
    (line : List Char) (rest : List (List Char))
    (hne : line ≠ []) (h1 : startsWith STR_AT line = false)
    (h2 : startsWith STR_RESPONSE_OK line = false)
    (h3 : startsWith STR_RESPONSE_ERROR line = false)
    (h4 : startsWith STR_RESPONSE_CME_ERROR line = false)
    (h5 : startsWith STR_RESPONSE_CMS_ERROR line = false)
    (hup : rrUsePfx pfx? = true) (huo : rrUseOut hasBuf cap = true)
    (hpfx : startsWith (pfx?.getD []) line = true) :
    readResponseGo sc pfx? hasBuf cap st buf log outSize (line :: rest)
      = readResponseGo sc pfx? hasBuf cap st
          (appendStep (pfx?.getD []).length cap line buf log outSize).1
          (appendStep (pfx?.getD []).length cap line buf log outSize).2.1
          (appendStep (pfx?.getD []).length cap line buf log outSize).2.2 rest := by
  simp only [readResponseGo]
  rw [if_neg hne, if_neg (by simp [h1]), if_neg (by simp [h2]),
    if_neg (by simp [h3, h4, h5]),
    if_pos (show rrHasPfx pfx? hasBuf cap line = true by simp [rrHasPfx, hup, huo, hpfx])]

theorem appendStep_take (cap : Nat) (payload buf : List Char) (log : List Nat)
    (hcap : payload.length + 1 ≤ cap) :
    (appendStep pfxPREFIX.length cap (pfxPREFIX ++ payload) buf log 0).1.take
      (appendStep pfxPREFIX.length cap (pfxPREFIX ++ payload) buf log 0).2.2 = payload := by
  have hLF : ¬ (0 < 0 ∧ 0 < cap - 1) := by simp
  simp only [appendStep, if_neg hLF]
  by_cases hpl : payload = []
  · subst hpl
    by_cases h1 : 0 < cap - 1
    · rw [if_pos h1]
      have hcnt0 : (pfxPREFIX ++ ([] : List Char)).length - pfxPREFIX.length = 0 := by
        simp
      rw [hcnt0]
      have htr : ¬ (0 + 0 > cap - 1) := by omega
      rw [if_neg htr]
      simp
    · rw [if_neg h1]
      simp
  · have hl1 : 0 < payload.length := List.length_pos.mpr hpl
    have h1 : 0 < cap - 1 := by omega
    rw [if_pos h1]
    have hcnt0 : (pfxPREFIX ++ payload).length - pfxPREFIX.length = payload.length := by
      simp [List.length_append]
    rw [hcnt0]
    have htr : ¬ (0 + payload.length > cap - 1) := by omega
    rw [if_neg htr]
    rw [List.drop_left]
    rw [take_set_of_le _ _ _ _ (le_refl _)]
    simp only [memcpyList, List.take_zero, List.nil_append, List.take_length, Nat.zero_add]
    exact List.take_left payload _

/-- C5: `readResponse` with expected prefix `"+PREFIX: "` and a sufficiently
large output buffer, applied to the line stream
`[echoed-command, notification-line, "+PREFIX: " ++ payload, "OK"]`
(where the echoed command starts with `AT` and the notification line is one
`checkURC` recognizes), returns the `Ok` outcome with the accumulated
payload being exactly `payload`: neither the echo nor the notification
appears in it. -/
theorem readResponse_prefix_payload (sc : Nat) (st : N3XState)
    (echoLine urcLine payload alloc : List Char) (cap : Nat)
    (hecho : startsWith STR_AT echoLine = true)
    (hurc : (checkURC sc st urcLine).1 = true)
    (hcap : payload.length + 1 ≤ cap) :
    (readResponse sc st alloc true cap (some pfxPREFIX)
        [echoLine, urcLine, pfxPREFIX ++ payload, STR_RESPONSE_OK]).outcome
      = GSMResponseOK ∧
    (readResponse sc st alloc true cap (some pfxPREFIX)
        [echoLine, urcLine, pfxPREFIX ++ payload, STR_RESPONSE_OK]).buf.take
      (readResponse sc st alloc true cap (some pfxPREFIX)
        [echoLine, urcLine, pfxPREFIX ++ payload, STR_RESPONSE_OK]).outSize
      = payload := by
  obtain ⟨hneU, hU1, hU2, hU3, hU4, hU5, hU6⟩ := urc_not_markers sc st urcLine hurc
  have hcap0 : 0 < cap := by omega
  have h0 : readResponse sc st alloc true cap (some pfxPREFIX)
      [echoLine, urcLine, pfxPREFIX ++ payload, STR_RESPONSE_OK]
      = readResponseGo sc (some pfxPREFIX) true cap st (alloc.set 0 NUL) [0] 0
        [echoLine, urcLine, pfxPREFIX ++ payload, STR_RESPONSE_OK] := rfl
  have hneP : pfxPREFIX ++ payload ≠ [] := by simp [pfxPREFIX]
  have hup : rrUsePfx (some pfxPREFIX) = true := rfl
  have huo : rrUseOut true cap = true := by simp [rrUseOut, hcap0]
  rw [h0,
    rrGo_skip_echo sc (some pfxPREFIX) true cap st (alloc.set 0 NUL) [0] 0 echoLine _ hecho,
    rrGo_urc_skip sc (some pfxPREFIX) true cap st (alloc.set 0 NUL) [0] 0 urcLine _
      hneU hU1 hU2 hU3 hU4 hU5 hU6 hurc,
    rrGo_append_pfx sc (some pfxPREFIX) true cap (checkURC sc st urcLine).2
      (alloc.set 0 NUL) [0] 0 (pfxPREFIX ++ payload) _
      hneP rfl rfl rfl rfl rfl hup huo (startsWith_append_self pfxPREFIX payload),
    rrGo_ok sc (some pfxPREFIX) true cap (checkURC sc st urcLine).2 _ _ _
      STR_RESPONSE_OK _ (by decide) rfl rfl]
  exact ⟨rfl, appendStep_take cap payload (alloc.set 0 NUL) [0] hcap⟩

/-- Witness for C5 at echo `"AT+CMD"`, notification `"+UUSORF: 0,2"`, payload
`"payload"`, capacity 16. -/
theorem readResponse_prefix_payload_witness :
    (readResponse 7 (initState 7) (List.replicate 16 'x') true 16 (some pfxPREFIX)
        [("AT+CMD").toList, ("+UUSORF: 0,2").toList,
          pfxPREFIX ++ ("payload").toList, STR_RESPONSE_OK]).outcome = GSMResponseOK ∧
    (readResponse 7 (initState 7) (List.replicate 16 'x') true 16 (some pfxPREFIX)
        [("AT+CMD").toList, ("+UUSORF: 0,2").toList,
          pfxPREFIX ++ ("payload").toList, STR_RESPONSE_OK]).buf.take
      (readResponse 7 (initState 7) (List.replicate 16 'x') true 16 (some pfxPREFIX)
        [("AT+CMD").toList, ("+UUSORF: 0,2").toList,
          pfxPREFIX ++ ("payload").toList, STR_RESPONSE_OK]).outSize
      = ("payload").toList :=
  readResponse_prefix_payload 7 (initState 7) (("AT+CMD").toList)
    (("+UUSORF: 0,2").toList) (("payload").toList) (List.replicate 16 'x') 16
    (by decide) (by decide) (by decide)
